import Mathlib

/-!
Shallow embedding of the course-enrollment backend: the enrollment route
handlers (POST /enrollments, GET /enrollments/user/:userId,
GET /enrollments/:id, GET /enrollments/:id/progress, DELETE /enrollments/:id)
and the database import utility. The database is modelled as lists of rows;
each handler becomes a pure function from a database state (and request
parameters) to a new state and a response value.
-/

/-- A user row: id, name (role and other columns are not read by the
enrollment routes). -/
structure User where
  id : String
  name : String
  deriving Repr, DecidableEq

/-- A course row. instructorId is nullable (modelled as Option). -/
structure Course where
  id : String
  title : String
  category : String
  level : String
  instructorId : Option String
  enrollmentCount : Int
  deriving Repr, DecidableEq

/-- A lesson row: belongs to a course, with a sequence position. -/
structure Lesson where
  id : String
  courseId : String
  order : Nat
  deriving Repr, DecidableEq

/-- An enrollment row. progress is the stored (denormalized) percentage;
enrolledAt and lastAccessedAt are timestamps modelled as naturals. -/
structure Enrollment where
  id : String
  userId : String
  courseId : String
  progress : Int
  enrolledAt : Nat
  deriving Repr, DecidableEq

/-- A lesson-progress row: the (enrollmentId, lessonId, userId) association
with a nullable completion timestamp, accumulated seconds, and resume
offset. -/
structure LessonProgressRow where
  enrollmentId : String
  lessonId : String
  userId : String
  completedAt : Option Nat
  timeSpent : Nat
  lastPosition : Nat
  deriving Repr, DecidableEq

/-- The database state read and written by the enrollment routes. -/
structure Db where
  users : List User
  courses : List Course
  lessons : List Lesson
  enrollments : List Enrollment
  lessonProgress : List LessonProgressRow
  deriving Repr, DecidableEq

/-- JavaScript Math.round applied to 100 * c / t for naturals c, t with
t > 0: round-half-up, computed exactly as floor((200 * c + t) / (2 * t)). -/
def jsRound100 (c t : Nat) : Nat :=
  (200 * c + t) / (2 * t)

/-- The progress percentage computed by the single-enrollment read:
round(100 * completed / total) when total > 0, and 0 when total = 0. -/
def progressPct (completed total : Nat) : Int :=
  if total > 0 then (jsRound100 completed total : Int) else 0

/-- JavaScript falsiness of an optional string request field: absent
(undefined/null) or the empty string. -/
def falsyStr : Option String → Bool
  | none => true
  | some s => s == ""

/-- Ordering relation used by orderBy(lessons.order). -/
def lessonLe (a b : Lesson) : Prop := a.order ≤ b.order

instance : DecidableRel lessonLe := fun a b => Nat.decLe a.order b.order

instance : IsTotal Lesson lessonLe := ⟨fun a b => Nat.le_total a.order b.order⟩

instance : IsTrans Lesson lessonLe := ⟨fun _ _ _ => Nat.le_trans⟩

/-- The lessons of a course, ordered by their sequence position: the result
of select from lessons where courseId = cid orderBy lessons.order. -/
def courseLessonsOf (db : Db) (cid : String) : List Lesson :=
  List.insertionSort lessonLe (db.lessons.filter (fun l => l.courseId == cid))

/-- Response of the POST /enrollments handler, as observed over HTTP:
a 200 confirmation echoing the ids, a 4xx client error with a JSON error
body, or a server-side failure (the re-thrown exception, surfaced by the
framework as a 500). -/
inductive PostResult where
  | ok (courseId userId : String)
  | clientError (status : Nat) (msg : String)
  | serverError (msg : String)
  deriving Repr, DecidableEq

/-- POST /enrollments: validates that courseId is provided (else 400), that
the course exists (else 404), and that userId is provided; a missing userId
throws, the catch block re-throws a generic failure (HTTP 500). -/
def createEnrollment (db : Db) (courseId? userId? : Option String) : PostResult :=
  if falsyStr courseId? then
    .clientError 400 "Course ID is required."
  else
    let cid := courseId?.getD ""
    match db.courses.find? (fun c => c.id == cid) with
    | none => .clientError 404 ("Course with id " ++ cid ++ " not found")
    | some _ =>
      if falsyStr userId? then
        .serverError "Failed to enroll in course"
      else
        .ok cid (userId?.getD "")

/-- One row of the GET /enrollments/user/:userId response: the enrollment
merged with its course and the instructor name. -/
structure UserEnrollmentRow where
  enrollment : Enrollment
  course : Course
  instructor : String
  deriving Repr, DecidableEq

/-- Ordering relation used by orderBy(enrollments.enrolledAt) on the joined
rows. -/
def enrolledAtLe (a b : UserEnrollmentRow) : Prop :=
  a.enrollment.enrolledAt ≤ b.enrollment.enrolledAt

instance : DecidableRel enrolledAtLe :=
  fun a b => Nat.decLe a.enrollment.enrolledAt b.enrollment.enrolledAt

instance : IsTotal UserEnrollmentRow enrolledAtLe :=
  ⟨fun a b => Nat.le_total a.enrollment.enrolledAt b.enrollment.enrolledAt⟩

instance : IsTrans UserEnrollmentRow enrolledAtLe :=
  ⟨fun _ _ _ => Nat.le_trans⟩

/-- GET /enrollments/user/:userId: inner join enrollments to courses on
courseId = course.id, inner join to users on course.instructorId = user.id,
filtered to the given user, ordered by enrolledAt. -/
def getUserEnrollments (db : Db) (uid : String) : List UserEnrollmentRow :=
  List.insertionSort enrolledAtLe
    ((db.enrollments.filter (fun e => e.userId == uid)).flatMap (fun e =>
      (db.courses.filter (fun c => c.id == e.courseId)).flatMap (fun c =>
        (db.users.filter (fun u => c.instructorId == some u.id)).map (fun u =>
          { enrollment := e, course := c, instructor := u.name }))))

/-- Response body of GET /enrollments/:id: the enrollment object spread
first, then course, lessons, completedLessons and progress keys. The spread
fields of the enrollment other than progress are kept in the enrollment
component; the progress key overrides the spread one and is kept
separately. -/
structure GetOneResponse where
  enrollment : Enrollment
  course : Option Course
  lessons : List Lesson
  completedLessons : List String
  progress : Int
  deriving Repr, DecidableEq

/-- GET /enrollments/:id: loads the enrollment (404 when absent), its
course, the ordered lessons of the course, and the lesson-progress rows
scoped to (enrollmentId, userId); computes the progress percentage from the
rows with a non-null completedAt; writes the stored progress back when it
differs from the computed value; and returns the augmented object. -/
def getEnrollment (db : Db) (id : String) : Db × Option GetOneResponse :=
  match db.enrollments.find? (fun e => e.id == id) with
  | none => (db, none)
  | some e =>
    let course := db.courses.find? (fun c => c.id == e.courseId)
    let courseLessons := courseLessonsOf db e.courseId
    let completedLessons := db.lessonProgress.filter
      (fun p => p.enrollmentId == id && p.userId == e.userId)
    let totalLessons := courseLessons.length
    let completedCount := (completedLessons.filter
      (fun p => p.completedAt.isSome)).length
    let progress := progressPct completedCount totalLessons
    let db' :=
      if progress ≠ e.progress then
        { db with enrollments := db.enrollments.map (fun x =>
            if x.id == id then { x with progress := progress } else x) }
      else
        db
    (db', some { enrollment := e, course := course, lessons := courseLessons,
                 completedLessons := completedLessons.map (fun p => p.lessonId),
                 progress := progress })

/-- One entry of the lessons array of the progress-detail response: the
lesson spread together with the completed flag and the progress fields
defaulted when no progress row exists. -/
structure LessonDetail where
  lesson : Lesson
  completed : Bool
  completedAt : Option Nat
  timeSpent : Nat
  lastPosition : Nat
  deriving Repr, DecidableEq

/-- Response body of GET /enrollments/:id/progress. -/
structure ProgressDetailResponse where
  enrollmentId : String
  courseId : String
  totalLessons : Nat
  completedLessons : Nat
  progressPercentage : Int
  totalTimeSpent : Nat
  lessons : List LessonDetail
  deriving Repr, DecidableEq

/-- The left join of the ordered course lessons against the lesson-progress
rows on lessonId = lesson.id and enrollmentId = id: a lesson with no
matching row yields one output row with a null progress side; a lesson with
matching rows yields one output row per match. -/
def progressJoin (db : Db) (id : String) (cid : String) :
    List (Lesson × Option LessonProgressRow) :=
  (courseLessonsOf db cid).flatMap (fun l =>
    match db.lessonProgress.filter
        (fun p => p.lessonId == l.id && p.enrollmentId == id) with
    | [] => [(l, none)]
    | ms => ms.map (fun m => (l, some m)))

/-- GET /enrollments/:id/progress: left-joins every lesson of the course
against the scoped progress rows, then aggregates counts, time spent and a
per-lesson detail array with defaults for lessons without a row. -/
def getEnrollmentProgress (db : Db) (id : String) : Option ProgressDetailResponse :=
  match db.enrollments.find? (fun e => e.id == id) with
  | none => none
  | some e =>
    let joined := progressJoin db id e.courseId
    let totalLessons := joined.length
    let completedLessons := (joined.filter
      (fun p => (p.2.bind (fun m => m.completedAt)).isSome)).length
    let totalTimeSpent := joined.foldl
      (fun s p => s + (match p.2 with | some m => m.timeSpent | none => 0)) 0
    some { enrollmentId := id
           courseId := e.courseId
           totalLessons := totalLessons
           completedLessons := completedLessons
           progressPercentage := progressPct completedLessons totalLessons
           totalTimeSpent := totalTimeSpent
           lessons := joined.map (fun p =>
             { lesson := p.1
               completed := (p.2.bind (fun m => m.completedAt)).isSome
               completedAt := p.2.bind (fun m => m.completedAt)
               timeSpent := match p.2 with | some m => m.timeSpent | none => 0
               lastPosition := match p.2 with | some m => m.lastPosition | none => 0 }) }

/-- Response of DELETE /enrollments/:id. -/
inductive DeleteResult where
  | notFound
  | deleted (id : String)
  deriving Repr, DecidableEq

/-- DELETE /enrollments/:id: 404 with no state change when the enrollment
does not exist; otherwise deletes the enrollment rows with that id and then,
in a second statement, decrements enrollmentCount on the courses with the
owning courseId. -/
def deleteEnrollment (db : Db) (id : String) : Db × DeleteResult :=
  match db.enrollments.find? (fun e => e.id == id) with
  | none => (db, .notFound)
  | some e =>
    let db1 := { db with enrollments :=
      db.enrollments.filter (fun x => !(x.id == id)) }
    let db2 := { db1 with courses := db1.courses.map (fun c =>
      if c.id == e.courseId then
        { c with enrollmentCount := c.enrollmentCount - 1 }
      else c) }
    (db2, .deleted id)

/-- A category row (only its key matters to the importer). -/
structure Category where
  id : String
  name : String
  deriving Repr, DecidableEq

/-- A review row (only its key matters to the importer). -/
structure Review where
  id : String
  userId : String
  courseId : String
  rating : Nat
  deriving Repr, DecidableEq

/-- A certificate row (only its key matters to the importer). -/
structure Certificate where
  id : String
  userId : String
  courseId : String
  enrollmentId : String
  deriving Repr, DecidableEq

/-- Modelled from the spec: the bulk insert with onConflictDoNothing of the
query-building layer (the schema module and the ORM are outside the given
sources). A row whose primary/unique key, given by the key function, is
already present in the table is silently skipped; otherwise it is
appended. -/
def insertSkipConflict {α κ : Type} [DecidableEq κ] (key : α → κ)
    (table : List α) (row : α) : List α :=
  if table.any (fun x => decide (key x = key row)) then table
  else table ++ [row]

/-- Modelled from the spec: one bulk-insert statement over a list of rows,
processing rows in order and skipping each row whose key already conflicts
with the table contents so far. -/
def insertAllSkipConflicts {α κ : Type} [DecidableEq κ] (key : α → κ)
    (table : List α) (rows : List α) : List α :=
  rows.foldl (insertSkipConflict key) table

/-- The full database state touched by the import utility: the eight tables
read from the export directory. -/
structure ImportDb where
  users : List User
  categories : List Category
  courses : List Course
  lessons : List Lesson
  enrollments : List Enrollment
  lessonProgress : List LessonProgressRow
  reviews : List Review
  certificates : List Certificate
  deriving Repr, DecidableEq

/-- One export directory: one JSON array per table (a missing file behaves
like an empty array). -/
structure ExportData where
  users : List User
  categories : List Category
  courses : List Course
  lessons : List Lesson
  enrollments : List Enrollment
  lessonProgress : List LessonProgressRow
  reviews : List Review
  certificates : List Certificate
  deriving Repr, DecidableEq

/-- Modelled from the spec: the key columns of each table. The row tables
keyed by their id column; the lesson-progress association keyed by its
composite (enrollmentId, lessonId, userId), as §3 of the spec describes
(the schema module is outside the given sources). -/
def lessonProgressKey (p : LessonProgressRow) : String × String × String :=
  (p.enrollmentId, p.lessonId, p.userId)

/-- importDatabase: inserts each export table in dependency order
(users, categories, courses, lessons, enrollments, lesson progress,
reviews, certificates), skipping rows whose key already exists. -/
def importDatabase (s : ImportDb) (e : ExportData) : ImportDb :=
  let s1 := { s with users := insertAllSkipConflicts User.id s.users e.users }
  let s2 := { s1 with categories :=
    insertAllSkipConflicts Category.id s1.categories e.categories }
  let s3 := { s2 with courses :=
    insertAllSkipConflicts Course.id s2.courses e.courses }
  let s4 := { s3 with lessons :=
    insertAllSkipConflicts Lesson.id s3.lessons e.lessons }
  let s5 := { s4 with enrollments :=
    insertAllSkipConflicts Enrollment.id s4.enrollments e.enrollments }
  let s6 := { s5 with lessonProgress :=
    insertAllSkipConflicts lessonProgressKey s5.lessonProgress e.lessonProgress }
  let s7 := { s6 with reviews :=
    insertAllSkipConflicts Review.id s6.reviews e.reviews }
  { s7 with certificates :=
    insertAllSkipConflicts Certificate.id s7.certificates e.certificates }

/-- Spec-side count: the number of lessons of a course. -/
def courseLessonCount (db : Db) (cid : String) : Nat :=
  (db.lessons.filter (fun l => l.courseId == cid)).length

/-- Spec-side selection: the lesson-progress rows scoped to
(enrollmentId, userId). -/
def scopedRows (db : Db) (id uid : String) : List LessonProgressRow :=
  db.lessonProgress.filter (fun p => p.enrollmentId == id && p.userId == uid)

/-- Spec-side count: the number of scoped lesson-progress rows whose
completedAt is non-null. -/
def completedRowCount (db : Db) (id uid : String) : Nat :=
  ((scopedRows db id uid).filter (fun p => p.completedAt.isSome)).length

/-- Spec-side count: the number of lessons of the owning course that are
completed, i.e. that have a scoped progress row with non-null
completedAt. -/
def completedCourseLessonCount (db : Db) (cid id uid : String) : Nat :=
  (db.lessons.filter (fun l => l.courseId == cid &&
    (scopedRows db id uid).any
      (fun p => p.lessonId == l.id && p.completedAt.isSome))).length

/-- Spec-side formula: the progress value the claims describe, computed
from the spec-side counts of scoped completed rows and course lessons. -/
def specProgress (db : Db) (id : String) (e : Enrollment) : Int :=
  progressPct (completedRowCount db id e.userId) (courseLessonCount db e.courseId)

/-- Well-formedness of the lesson-progress table relative to one
enrollment: the rows scoped to the enrollment id reference pairwise
distinct lessons. This is the one-row-per-(enrollment, lesson) shape of the
data model. -/
def ProgressRowsDistinct (db : Db) (id : String) : Prop :=
  (db.lessonProgress.filter (fun p => p.enrollmentId == id)).Pairwise
    (fun a b => a.lessonId ≠ b.lessonId)

/-- Well-formedness of the lesson-progress table relative to one
enrollment: every scoped row references a lesson of the owning course. -/
def ProgressRowsInCourse (db : Db) (id uid cid : String) : Prop :=
  ∀ p ∈ scopedRows db id uid,
    ∃ l ∈ db.lessons, l.courseId = cid ∧ l.id = p.lessonId

/-- Well-formedness of the lessons table relative to one course: the
lessons of the course have pairwise distinct ids. -/
def CourseLessonIdsDistinct (db : Db) (cid : String) : Prop :=
  (db.lessons.filter (fun l => l.courseId == cid)).Pairwise
    (fun a b => a.id ≠ b.id)

theorem insertSkipConflict_mem {α κ : Type} [DecidableEq κ] (key : α → κ)
    {table : List α} (row : α) {x : α} (hx : x ∈ table) :
    x ∈ insertSkipConflict key table row := by
  unfold insertSkipConflict
  split
  · exact hx
  · exact List.mem_append_left _ hx

theorem insertAllSkipConflicts_cons {α κ : Type} [DecidableEq κ] (key : α → κ)
    (table : List α) (row : α) (rows : List α) :
    insertAllSkipConflicts key table (row :: rows) =
      insertAllSkipConflicts key (insertSkipConflict key table row) rows := rfl

theorem insertAllSkipConflicts_mem {α κ : Type} [DecidableEq κ] (key : α → κ)
    {table : List α} (rows : List α) {x : α} (hx : x ∈ table) :
    x ∈ insertAllSkipConflicts key table rows := by
  induction rows generalizing table with
  | nil => exact hx
  | cons r rs ih =>
    rw [insertAllSkipConflicts_cons]
    exact ih (insertSkipConflict_mem key r hx)

theorem insertAllSkipConflicts_key_present {α κ : Type} [DecidableEq κ]
    (key : α → κ) (table rows : List α) :
    ∀ r ∈ rows, ∃ x ∈ insertAllSkipConflicts key table rows, key x = key r := by
  induction rows generalizing table with
  | nil => intro r hr; cases hr
  | cons a rs ih =>
    intro r hr
    rcases List.mem_cons.mp hr with h | h
    · subst h
      have hkey : ∃ x ∈ insertSkipConflict key table r, key x = key r := by
        unfold insertSkipConflict
        split
        · rename_i hany
          obtain ⟨x, hx, hk⟩ := List.any_eq_true.mp hany
          exact ⟨x, hx, of_decide_eq_true hk⟩
        · exact ⟨r, List.mem_append_right _ (List.mem_singleton.mpr rfl), rfl⟩
      obtain ⟨x, hx, hk⟩ := hkey
      rw [insertAllSkipConflicts_cons]
      exact ⟨x, insertAllSkipConflicts_mem key rs hx, hk⟩
    · rw [insertAllSkipConflicts_cons]
      exact ih (insertSkipConflict key table a) r h

theorem insertSkipConflict_of_present {α κ : Type} [DecidableEq κ]
    (key : α → κ) {table : List α} {row : α}
    (h : ∃ x ∈ table, key x = key row) :
    insertSkipConflict key table row = table := by
  unfold insertSkipConflict
  rw [if_pos]
  obtain ⟨x, hx, hk⟩ := h
  exact List.any_eq_true.mpr ⟨x, hx, decide_eq_true hk⟩

theorem insertAllSkipConflicts_of_present {α κ : Type} [DecidableEq κ]
    (key : α → κ) {table : List α} {rows : List α}
    (h : ∀ r ∈ rows, ∃ x ∈ table, key x = key r) :
    insertAllSkipConflicts key table rows = table := by
  induction rows with
  | nil => rfl
  | cons a rs ih =>
    rw [insertAllSkipConflicts_cons,
        insertSkipConflict_of_present key (h a (List.mem_cons_self a rs))]
    exact ih (fun r hr => h r (List.mem_cons_of_mem a hr))

theorem insertAllSkipConflicts_idem {α κ : Type} [DecidableEq κ]
    (key : α → κ) (table rows : List α) :
    insertAllSkipConflicts key (insertAllSkipConflicts key table rows) rows =
      insertAllSkipConflicts key table rows :=
  insertAllSkipConflicts_of_present key
    (insertAllSkipConflicts_key_present key table rows)

/-- C9: running the import utility twice on the same export is idempotent
with respect to table contents: each row whose primary/unique key already
exists is silently skipped, so the second run inserts zero new rows into
any of the eight tables and no rows are duplicated. -/
theorem importDatabase_idempotent (s : ImportDb) (e : ExportData) :
    importDatabase (importDatabase s e) e = importDatabase s e := by
  cases s with
  | mk u cat co le en lp rv ce =>
    simp [importDatabase, insertAllSkipConflicts_idem]

theorem getEnrollment_eq_of_found (db : Db) (id : String) (e : Enrollment)
    (h : db.enrollments.find? (fun x => x.id == id) = some e) :
    getEnrollment db id =
      (if specProgress db id e ≠ e.progress then
         { db with enrollments := db.enrollments.map (fun x =>
             if x.id == id then { x with progress := specProgress db id e } else x) }
       else db,
       some { enrollment := e
              course := db.courses.find? (fun c => c.id == e.courseId)
              lessons := courseLessonsOf db e.courseId
              completedLessons := (scopedRows db id e.userId).map (fun p => p.lessonId)
              progress := specProgress db id e }) := by
  unfold getEnrollment
  rw [h]
  simp only [specProgress, completedRowCount, scopedRows, courseLessonCount,
    progressPct, courseLessonsOf, List.length_insertionSort]

theorem getEnrollment_find?_after (db : Db) (id : String) (e : Enrollment)
    (h : db.enrollments.find? (fun x => x.id == id) = some e) :
    (getEnrollment db id).1.enrollments.find? (fun x => x.id == id) =
      some { e with progress := specProgress db id e } := by
  rw [getEnrollment_eq_of_found db id e h]
  have hid := List.find?_some h
  by_cases hc : specProgress db id e = e.progress
  · rw [hc, if_neg (by simp)]
    show db.enrollments.find? (fun x => x.id == id) = _
    rw [h]
  · rw [if_pos hc]
    show (db.enrollments.map _).find? _ = _
    rw [List.find?_map]
    have hfun : ((fun x : Enrollment => x.id == id) ∘ (fun x =>
        if x.id == id then { x with progress := specProgress db id e } else x)) =
        (fun x : Enrollment => x.id == id) := by
      funext x
      by_cases hx : (x.id == id) = true
      · simp [Function.comp, hx]
      · simp [Function.comp, hx]
    rw [hfun, h]
    simp only [Option.map_some']
    rw [if_pos hid]

/-- C1: for the single-enrollment read on an existing enrollment, the
returned progress equals round(100 * completedCount / totalLessons) when
totalLessons > 0 and 0 when totalLessons = 0, where totalLessons is the
number of lessons of the owning course and completedCount the number of
lesson-progress rows scoped to (enrollmentId, userId) with non-null
completedAt. -/
theorem getEnrollment_progress_formula (db : Db) (id : String) (e : Enrollment)
    (h : db.enrollments.find? (fun x => x.id == id) = some e) :
    ∃ r, (getEnrollment db id).2 = some r ∧
      r.progress = progressPct (completedRowCount db id e.userId)
                               (courseLessonCount db e.courseId) := by
  rw [getEnrollment_eq_of_found db id e h]
  exact ⟨_, rfl, rfl⟩

/-- Concrete scenario for C1: one course with 4 lessons, the user completed
2 of them, stored progress stale at 0. -/
def dbFourLessons : Db :=
  { users := [{ id := "u1", name := "User One" }]
    courses := [{ id := "c1", title := "Course One", category := "cat"
                  level := "beginner", instructorId := some "u1"
                  enrollmentCount := 1 }]
    lessons := [{ id := "l1", courseId := "c1", order := 1 },
                { id := "l2", courseId := "c1", order := 2 },
                { id := "l3", courseId := "c1", order := 3 },
                { id := "l4", courseId := "c1", order := 4 }]
    enrollments := [{ id := "e1", userId := "u1", courseId := "c1"
                      progress := 0, enrolledAt := 0 }]
    lessonProgress := [{ enrollmentId := "e1", lessonId := "l1", userId := "u1"
                         completedAt := some 10, timeSpent := 60, lastPosition := 0 },
                       { enrollmentId := "e1", lessonId := "l2", userId := "u1"
                         completedAt := some 20, timeSpent := 30, lastPosition := 5 }] }

theorem getEnrollment_progress_formula_witness :
    ∃ r, (getEnrollment dbFourLessons "e1").2 = some r ∧ r.progress = 50 := by
  obtain ⟨r, hr, hp⟩ := getEnrollment_progress_formula dbFourLessons "e1"
    { id := "e1", userId := "u1", courseId := "c1", progress := 0, enrolledAt := 0 }
    (by decide)
  refine ⟨r, hr, ?_⟩
  rw [hp]
  decide

/-- C3: during the single-enrollment read, the stored progress of the
enrollment is written if and only if the freshly computed progress differs
from the stored value, the write is visible in the state the response is
computed against, all other tables and all other enrollment rows are left
unchanged, and when the computed value equals the stored value the whole
database is left unchanged. -/
theorem getEnrollment_write_iff (db : Db) (id : String) (e : Enrollment)
    (h : db.enrollments.find? (fun x => x.id == id) = some e) :
    ((getEnrollment db id).1 = db ↔ specProgress db id e = e.progress) ∧
    (getEnrollment db id).1.users = db.users ∧
    (getEnrollment db id).1.courses = db.courses ∧
    (getEnrollment db id).1.lessons = db.lessons ∧
    (getEnrollment db id).1.lessonProgress = db.lessonProgress ∧
    (∀ x ∈ db.enrollments, ¬ x.id = id →
      x ∈ (getEnrollment db id).1.enrollments) ∧
    (getEnrollment db id).1.enrollments.find? (fun x => x.id == id) =
      some { e with progress := specProgress db id e } := by
  have hafter := getEnrollment_find?_after db id e h
  refine ⟨?_, ?_, ?_, ?_, ?_, ?_, hafter⟩
  · constructor
    · intro hdb
      rw [hdb, h] at hafter
      have := congrArg Enrollment.progress (Option.some.inj hafter)
      exact this.symm
    · intro hc
      rw [getEnrollment_eq_of_found db id e h, hc, if_neg (by simp)]
  all_goals
    rw [getEnrollment_eq_of_found db id e h]
    by_cases hc : specProgress db id e = e.progress
  · rw [hc, if_neg (by simp)]
  · rw [if_pos hc]
  · rw [hc, if_neg (by simp)]
  · rw [if_pos hc]
  · rw [hc, if_neg (by simp)]
  · rw [if_pos hc]
  · rw [hc, if_neg (by simp)]
  · rw [if_pos hc]
  · intro x hx hxid
    rw [hc, if_neg (by simp)]
    exact hx
  · intro x hx hxid
    rw [if_pos hc]
    show x ∈ db.enrollments.map _
    refine List.mem_map.mpr ⟨x, hx, ?_⟩
    rw [if_neg (by simpa using hxid)]

/-- Variant of the four-lesson scenario whose stored progress already
matches the computed value. -/
def dbStable : Db :=
  { dbFourLessons with enrollments := [{ id := "e1", userId := "u1"
                                         courseId := "c1", progress := 50
                                         enrolledAt := 0 }] }

theorem getEnrollment_write_iff_witness :
    (getEnrollment dbStable "e1").1 = dbStable := by
  have hmain := getEnrollment_write_iff dbStable "e1"
    { id := "e1", userId := "u1", courseId := "c1", progress := 50, enrolledAt := 0 }
    (by decide)
  exact hmain.1.mpr (by decide)

theorem progressPct_nonneg (c t : Nat) : 0 ≤ progressPct c t := by
  unfold progressPct
  split
  · exact Int.ofNat_nonneg _
  · exact le_refl 0

theorem progressPct_le_100 (c t : Nat) (h : c ≤ t) : progressPct c t ≤ 100 := by
  unfold progressPct
  split
  · rename_i ht
    have hb : jsRound100 c t ≤ 100 := by
      unfold jsRound100
      have h2 : 0 < 2 * t := by omega
      have : (200 * c + t) / (2 * t) < 101 := by
        rw [Nat.div_lt_iff_lt_mul h2]
        omega
      omega
    exact_mod_cast hb
  · norm_num

theorem scopedRows_eq_filter_filter (db : Db) (id uid : String) :
    scopedRows db id uid =
      (db.lessonProgress.filter (fun p => p.enrollmentId == id)).filter
        (fun p => p.userId == uid) := by
  rw [List.filter_filter]
  exact List.filter_congr (fun a _ => by rw [Bool.and_comm])

theorem scopedRows_pairwise (db : Db) (id uid : String)
    (hdist : ProgressRowsDistinct db id) :
    (scopedRows db id uid).Pairwise (fun a b => a.lessonId ≠ b.lessonId) := by
  rw [scopedRows_eq_filter_filter]
  exact List.Pairwise.sublist (List.filter_sublist _) hdist

theorem length_le_one_of_key_const {α κ : Type} (f : α → κ) (k : κ) :
    ∀ (l : List α), l.Pairwise (fun a b => f a ≠ f b) →
      (∀ x ∈ l, f x = k) → l.length ≤ 1
  | [], _, _ => by simp
  | [_], _, _ => by simp
  | a :: b :: _, hp, hall => by
    exfalso
    have hab := (List.pairwise_cons.mp hp).1 b (List.mem_cons_self b _)
    exact hab ((hall a (by simp)).trans (hall b (by simp)).symm)

theorem length_filter_mem_eq {α : Type} [DecidableEq α] (K IDs : List α)
    (hK : K.Nodup) (hI : IDs.Nodup) (hsub : ∀ x ∈ IDs, x ∈ K) :
    (K.filter (fun k => decide (k ∈ IDs))).length = IDs.length := by
  have hF : (K.filter (fun k => decide (k ∈ IDs))).Nodup := hK.filter _
  have hset : (K.filter (fun k => decide (k ∈ IDs))).toFinset = IDs.toFinset := by
    ext x
    simp only [List.mem_toFinset, List.mem_filter, decide_eq_true_eq]
    exact ⟨fun hx => hx.2, fun hx => ⟨hsub x hx, hx⟩⟩
  calc (K.filter (fun k => decide (k ∈ IDs))).length
      = (K.filter (fun k => decide (k ∈ IDs))).toFinset.card :=
        (List.toFinset_card_of_nodup hF).symm
    _ = IDs.toFinset.card := by rw [hset]
    _ = IDs.length := List.toFinset_card_of_nodup hI

theorem filter_and_length_le {α : Type} (p q : α → Bool) (l : List α) :
    (l.filter (fun a => p a && q a)).length ≤ (l.filter p).length := by
  induction l with
  | nil => simp
  | cons a t ih =>
    by_cases hp : p a <;> by_cases hq : q a <;>
      simp [hp, hq, List.length_cons] <;> omega

theorem completedCourseLessonCount_le (db : Db) (cid id uid : String) :
    completedCourseLessonCount db cid id uid ≤ courseLessonCount db cid :=
  filter_and_length_le _ _ _

theorem completedCourseLessonCount_eq (db : Db) (id uid cid : String)
    (hdist : ProgressRowsDistinct db id)
    (hin : ProgressRowsInCourse db id uid cid)
    (hcl : CourseLessonIdsDistinct db cid) :
    completedCourseLessonCount db cid id uid = completedRowCount db id uid := by
  classical
  set CR := (scopedRows db id uid).filter (fun p => p.completedAt.isSome) with hCRdef
  set IDs := CR.map (fun p => p.lessonId) with hIDsdef
  set CL := db.lessons.filter (fun l => l.courseId == cid) with hCLdef
  have hCRpair : CR.Pairwise (fun a b => a.lessonId ≠ b.lessonId) :=
    List.Pairwise.sublist (List.filter_sublist _) (scopedRows_pairwise db id uid hdist)
  have hI : IDs.Nodup := List.pairwise_map.mpr hCRpair
  have hK : (CL.map (fun l => l.id)).Nodup := List.pairwise_map.mpr hcl
  have hsub : ∀ x ∈ IDs, x ∈ CL.map (fun l => l.id) := by
    intro x hx
    obtain ⟨p, hp, hpx⟩ := List.mem_map.mp hx
    have hps : p ∈ scopedRows db id uid := (List.filter_sublist _).mem hp
    obtain ⟨l, hl, hlcid, hlid⟩ := hin p hps
    refine List.mem_map.mpr ⟨l, ?_, by rw [hlid, hpx]⟩
    exact List.mem_filter.mpr ⟨hl, by simp [hlcid]⟩
  have hany : ∀ l : Lesson,
      ((scopedRows db id uid).any
        (fun p => p.lessonId == l.id && p.completedAt.isSome)) =
      decide (l.id ∈ IDs) := by
    intro l
    by_cases hmem : l.id ∈ IDs
    · rw [decide_eq_true hmem]
      obtain ⟨p, hp, hpx⟩ := List.mem_map.mp hmem
      have hps := List.mem_filter.mp hp
      exact List.any_eq_true.mpr ⟨p, hps.1, by simp [hpx, hps.2]⟩
    · rw [decide_eq_false hmem]
      rw [← Bool.not_eq_true, List.any_eq_true]
      rintro ⟨p, hps, hpl⟩
      simp only [Bool.and_eq_true, beq_iff_eq] at hpl
      refine hmem (List.mem_map.mpr ⟨p, ?_, hpl.1⟩)
      exact List.mem_filter.mpr ⟨hps, hpl.2⟩
  have hstep : completedCourseLessonCount db cid id uid =
      (CL.filter (fun l => decide (l.id ∈ IDs))).length := by
    unfold completedCourseLessonCount
    rw [show (db.lessons.filter (fun l => l.courseId == cid &&
        (scopedRows db id uid).any
          (fun p => p.lessonId == l.id && p.completedAt.isSome))) =
        (db.lessons.filter (fun l => l.courseId == cid)).filter
          (fun l => (scopedRows db id uid).any
            (fun p => p.lessonId == l.id && p.completedAt.isSome)) from by
      rw [List.filter_filter]
      exact List.filter_congr (fun a _ => by rw [Bool.and_comm])]
    rw [← hCLdef]
    congr 1
    exact List.filter_congr (fun l _ => hany l)
  have hlen : (CL.filter (fun l => decide (l.id ∈ IDs))).length =
      ((CL.map (fun l => l.id)).filter (fun k => decide (k ∈ IDs))).length := by
    rw [List.filter_map, List.length_map]
    rfl
  rw [hstep, hlen, length_filter_mem_eq (CL.map (fun l => l.id)) IDs hK hI hsub]
  unfold completedRowCount
  rw [hIDsdef, List.length_map]

/-- C2: after a single-enrollment read of an existing enrollment whose
lesson-progress rows are well formed (one row per lesson, rows referencing
lessons of the owning course, course lesson ids distinct), the stored
progress of that enrollment lies in [0, 100] and equals
round(100 * completedLessons / totalLessons) for the owning course, with
totalLessons = 0 implying progress = 0. -/
theorem getEnrollment_stored_invariant (db : Db) (id : String) (e : Enrollment)
    (h : db.enrollments.find? (fun x => x.id == id) = some e)
    (hdist : ProgressRowsDistinct db id)
    (hin : ProgressRowsInCourse db id e.userId e.courseId)
    (hcl : CourseLessonIdsDistinct db e.courseId) :
    ∃ e', (getEnrollment db id).1.enrollments.find? (fun x => x.id == id) =
        some e' ∧
      e'.progress = progressPct (completedCourseLessonCount db e.courseId id e.userId)
                                (courseLessonCount db e.courseId) ∧
      0 ≤ e'.progress ∧ e'.progress ≤ 100 := by
  have hbij := completedCourseLessonCount_eq db id e.userId e.courseId hdist hin hcl
  refine ⟨_, getEnrollment_find?_after db id e h, ?_, ?_, ?_⟩
  · show specProgress db id e = _
    unfold specProgress
    rw [hbij]
  · exact progressPct_nonneg _ _
  · show specProgress db id e ≤ 100
    unfold specProgress
    rw [← hbij]
    exact progressPct_le_100 _ _ (completedCourseLessonCount_le db e.courseId id e.userId)

theorem getEnrollment_stored_invariant_witness :
    ∃ e', (getEnrollment dbFourLessons "e1").1.enrollments.find?
        (fun x => x.id == "e1") = some e' ∧
      e'.progress = 50 ∧ 0 ≤ e'.progress ∧ e'.progress ≤ 100 := by
  obtain ⟨e', h1, h2, h3, h4⟩ := getEnrollment_stored_invariant dbFourLessons "e1"
    { id := "e1", userId := "u1", courseId := "c1", progress := 0, enrolledAt := 0 }
    (by decide) (by unfold ProgressRowsDistinct; decide)
    (by unfold ProgressRowsInCourse; decide)
    (by unfold CourseLessonIdsDistinct; decide)
  refine ⟨e', h1, ?_, h3, h4⟩
  rw [h2]
  decide

/-- C4 (amended): the single-enrollment read on an existing enrollment
returns the enrollment augmented with its course (the first course row with
the owning id, when present), the full lesson list of the course sorted by
lesson order, the array of the lesson ids of all lesson-progress rows
scoped to (enrollmentId, userId) regardless of completedAt, and the freshly
computed progress value. -/
theorem getEnrollment_response_spec (db : Db) (id : String) (e : Enrollment)
    (h : db.enrollments.find? (fun x => x.id == id) = some e) :
    ∃ r, (getEnrollment db id).2 = some r ∧
      r.enrollment = e ∧
      r.course = db.courses.find? (fun c => c.id == e.courseId) ∧
      r.lessons.Perm (db.lessons.filter (fun l => l.courseId == e.courseId)) ∧
      r.lessons.Sorted lessonLe ∧
      r.completedLessons = (scopedRows db id e.userId).map (fun p => p.lessonId) ∧
      r.progress = specProgress db id e := by
  rw [getEnrollment_eq_of_found db id e h]
  refine ⟨_, rfl, rfl, rfl, ?_, ?_, rfl, rfl⟩
  · unfold courseLessonsOf
    exact List.perm_insertionSort lessonLe _
  · unfold courseLessonsOf
    exact List.sorted_insertionSort lessonLe _

/-- Counterexample scenario for C4 as frozen: one lesson with a scoped
progress row whose completedAt is null. -/
def dbIncompleteRow : Db :=
  { users := [{ id := "u1", name := "User One" }]
    courses := [{ id := "c1", title := "Course One", category := "cat"
                  level := "beginner", instructorId := some "u1"
                  enrollmentCount := 1 }]
    lessons := [{ id := "l1", courseId := "c1", order := 1 }]
    enrollments := [{ id := "e1", userId := "u1", courseId := "c1"
                      progress := 0, enrolledAt := 0 }]
    lessonProgress := [{ enrollmentId := "e1", lessonId := "l1", userId := "u1"
                         completedAt := none, timeSpent := 5, lastPosition := 3 }] }

/-- Counterexample to C4 as frozen: the returned completedLessons array is
the singleton of a lesson id whose only progress row has a null
completedAt, so the array does not contain exactly the completed lesson
ids, which here form the empty list. -/
theorem getEnrollment_completedLessons_counterexample :
    ((getEnrollment dbIncompleteRow "e1").2.map (fun r => r.completedLessons)) =
        some ["l1"] ∧
    ((dbIncompleteRow.lessonProgress.filter (fun p => p.completedAt.isSome)).map
        (fun p => p.lessonId)) = [] := by
  constructor
  · decide
  · decide

theorem getEnrollment_response_spec_witness :
    ∃ r, (getEnrollment dbIncompleteRow "e1").2 = some r ∧
      r.completedLessons = ["l1"] ∧ r.progress = 0 := by
  obtain ⟨r, h1, _h2, _h3, _h4, _h5, h6, h7⟩ :=
    getEnrollment_response_spec dbIncompleteRow "e1"
      { id := "e1", userId := "u1", courseId := "c1", progress := 0, enrolledAt := 0 }
      (by decide)
  refine ⟨r, h1, ?_, ?_⟩
  · rw [h6]; decide
  · rw [h7]; decide

/-- C5: for every POST /enrollments request, an absent courseId yields 400
with the fixed error body, independently of any database state (the check
runs before the course lookup); a present, non-empty courseId that matches
no course row yields 404 with the interpolated error body. -/
theorem createEnrollment_client_errors (db : Db) (userId? : Option String) :
    (createEnrollment db none userId? =
      .clientError 400 "Course ID is required.") ∧
    (∀ cid : String, cid ≠ "" →
      db.courses.find? (fun c => c.id == cid) = none →
      createEnrollment db (some cid) userId? =
        .clientError 404 ("Course with id " ++ cid ++ " not found")) := by
  constructor
  · rfl
  · intro cid hne hfind
    unfold createEnrollment
    rw [if_neg (by simpa [falsyStr] using hne)]
    simp only [Option.getD_some]
    rw [hfind]

theorem createEnrollment_client_errors_witness :
    (createEnrollment dbFourLessons none (some "u1") =
      .clientError 400 "Course ID is required.") ∧
    (createEnrollment dbFourLessons (some "cX") (some "u1") =
      .clientError 404 "Course with id cX not found") := by
  have hmain := createEnrollment_client_errors dbFourLessons (some "u1")
  exact ⟨hmain.1, hmain.2 "cX" (by decide) (by decide)⟩

/-- C6: a POST /enrollments request whose courseId names an existing course
but whose userId is absent does not get a 4xx client error: the handler
throws, the catch block re-throws the generic failure, and the framework
surfaces it as a server-side error (HTTP 500). -/
theorem createEnrollment_missing_user (db : Db) (cid : String) (c : Course)
    (hne : cid ≠ "")
    (h : db.courses.find? (fun x => x.id == cid) = some c) :
    createEnrollment db (some cid) none =
      .serverError "Failed to enroll in course" := by
  unfold createEnrollment
  rw [if_neg (by simpa [falsyStr] using hne)]
  simp only [Option.getD_some]
  rw [h]
  rfl

theorem createEnrollment_missing_user_witness :
    createEnrollment dbFourLessons (some "c1") none =
      .serverError "Failed to enroll in course" :=
  createEnrollment_missing_user dbFourLessons "c1"
    { id := "c1", title := "Course One", category := "cat", level := "beginner"
      instructorId := some "u1", enrollmentCount := 1 }
    (by decide) (by decide)

/-- C7: DELETE /enrollments/:id answers 404 with no state change when the
enrollment does not exist; otherwise it deletes the enrollment rows with
that id (other enrollments, users, lessons and progress rows untouched) and
the course row found under the owning courseId has its enrollmentCount
decremented by exactly 1, other course rows untouched. -/
theorem deleteEnrollment_spec (db : Db) (id : String) :
    (db.enrollments.find? (fun x => x.id == id) = none →
      deleteEnrollment db id = (db, .notFound)) ∧
    (∀ e, db.enrollments.find? (fun x => x.id == id) = some e →
      (deleteEnrollment db id).2 = .deleted id ∧
      (∀ x ∈ (deleteEnrollment db id).1.enrollments, ¬ x.id = id) ∧
      (∀ x ∈ db.enrollments, ¬ x.id = id →
        x ∈ (deleteEnrollment db id).1.enrollments) ∧
      (deleteEnrollment db id).1.users = db.users ∧
      (deleteEnrollment db id).1.lessons = db.lessons ∧
      (deleteEnrollment db id).1.lessonProgress = db.lessonProgress ∧
      (∀ c, db.courses.find? (fun x => x.id == e.courseId) = some c →
        (deleteEnrollment db id).1.courses.find? (fun x => x.id == e.courseId) =
          some { c with enrollmentCount := c.enrollmentCount - 1 }) ∧
      (∀ c ∈ db.courses, ¬ c.id = e.courseId →
        c ∈ (deleteEnrollment db id).1.courses)) := by
  constructor
  · intro hnone
    unfold deleteEnrollment
    rw [hnone]
  · intro e he
    have hunf : deleteEnrollment db id =
        ({ db with
            enrollments := db.enrollments.filter (fun x => !(x.id == id))
            courses := db.courses.map (fun c =>
              if c.id == e.courseId then
                { c with enrollmentCount := c.enrollmentCount - 1 }
              else c) },
          .deleted id) := by
      unfold deleteEnrollment
      rw [he]
    rw [hunf]
    refine ⟨rfl, ?_, ?_, rfl, rfl, rfl, ?_, ?_⟩
    · intro x hx
      have := (List.mem_filter.mp hx).2
      simpa using this
    · intro x hx hxid
      exact List.mem_filter.mpr ⟨hx, by simpa using hxid⟩
    · intro c hc
      show (db.courses.map _).find? _ = _
      rw [List.find?_map]
      have hfun : ((fun x : Course => x.id == e.courseId) ∘ (fun c =>
          if c.id == e.courseId then
            { c with enrollmentCount := c.enrollmentCount - 1 }
          else c)) = (fun x : Course => x.id == e.courseId) := by
        funext x
        by_cases hx : (x.id == e.courseId) = true
        · simp [Function.comp, hx]
        · simp [Function.comp, hx]
      rw [hfun, hc]
      simp only [Option.map_some']
      rw [if_pos (List.find?_some hc)]
    · intro c hc hcid
      refine List.mem_map.mpr ⟨c, hc, ?_⟩
      rw [if_neg (by simpa using hcid)]

theorem deleteEnrollment_spec_witness :
    deleteEnrollment dbStable "missing" = (dbStable, .notFound) ∧
    ((deleteEnrollment dbFourLessons "e1").2 = .deleted "e1" ∧
      (deleteEnrollment dbFourLessons "e1").1.courses.find?
          (fun x => x.id == "c1") =
        some { id := "c1", title := "Course One", category := "cat"
               level := "beginner", instructorId := some "u1"
               enrollmentCount := 0 }) := by
  constructor
  · exact (deleteEnrollment_spec dbStable "missing").1 (by decide)
  · obtain ⟨h2, _, _, _, _, _, hcourse, _⟩ :=
      (deleteEnrollment_spec dbFourLessons "e1").2
        { id := "e1", userId := "u1", courseId := "c1", progress := 0, enrolledAt := 0 }
        (by decide)
    refine ⟨h2, ?_⟩
    have := hcourse
      { id := "c1", title := "Course One", category := "cat", level := "beginner"
        instructorId := some "u1", enrollmentCount := 1 }
      (by decide)
    simpa using this

theorem flatMap_eq_map {α β : Type} (f : α → List β) (g : α → β) (l : List α)
    (h : ∀ a ∈ l, f a = [g a]) : l.flatMap f = l.map g := by
  induction l with
  | nil => rfl
  | cons a t ih =>
    rw [List.flatMap_cons, List.map_cons, h a (List.mem_cons_self a t),
        ih (fun x hx => h x (List.mem_cons_of_mem a hx))]
    rfl

theorem filter_lesson_len_le_one (db : Db) (id lid : String)
    (hdist : ProgressRowsDistinct db id) :
    (db.lessonProgress.filter
      (fun p => p.lessonId == lid && p.enrollmentId == id)).length ≤ 1 := by
  have heq : db.lessonProgress.filter
      (fun p => p.lessonId == lid && p.enrollmentId == id) =
      (db.lessonProgress.filter (fun p => p.enrollmentId == id)).filter
        (fun p => p.lessonId == lid) := by
    rw [List.filter_filter]
  rw [heq]
  refine length_le_one_of_key_const (fun p => p.lessonId) lid _ ?_ ?_
  · exact List.Pairwise.sublist (List.filter_sublist _) hdist
  · intro x hx
    have := (List.mem_filter.mp hx).2
    simpa using this

theorem progressJoin_eq (db : Db) (id cid : String)
    (hdist : ProgressRowsDistinct db id) :
    progressJoin db id cid = (courseLessonsOf db cid).map (fun l =>
      (l, (db.lessonProgress.filter
        (fun p => p.lessonId == l.id && p.enrollmentId == id)).head?)) := by
  unfold progressJoin
  apply flatMap_eq_map
  intro l _
  have hle := filter_lesson_len_le_one db id l.id hdist
  cases hcase : db.lessonProgress.filter
      (fun p => p.lessonId == l.id && p.enrollmentId == id) with
  | nil => rfl
  | cons m ms =>
    cases ms with
    | nil => rfl
    | cons m2 ms2 =>
      rw [hcase] at hle
      simp at hle

/-- C8: for the progress-detail read on an existing enrollment whose
scoped progress rows reference pairwise distinct lessons, the returned
lessons array has length equal to the total lesson count of the course,
its lesson components are exactly the ordered course lessons, and a lesson
with no progress row reports completed = false, timeSpent = 0 and
lastPosition = 0. -/
theorem getEnrollmentProgress_spec (db : Db) (id : String) (e : Enrollment)
    (h : db.enrollments.find? (fun x => x.id == id) = some e)
    (hdist : ProgressRowsDistinct db id) :
    ∃ r, getEnrollmentProgress db id = some r ∧
      r.totalLessons = courseLessonCount db e.courseId ∧
      r.lessons.length = courseLessonCount db e.courseId ∧
      r.lessons.map (fun d => d.lesson) = courseLessonsOf db e.courseId ∧
      (∀ d ∈ r.lessons,
        (∀ p ∈ db.lessonProgress,
          ¬(p.enrollmentId = id ∧ p.lessonId = d.lesson.id)) →
        d.completed = false ∧ d.timeSpent = 0 ∧ d.lastPosition = 0) := by
  unfold getEnrollmentProgress
  rw [h]
  have hjoin := progressJoin_eq db id e.courseId hdist
  have hlen : (progressJoin db id e.courseId).length =
      courseLessonCount db e.courseId := by
    rw [hjoin, List.length_map]
    unfold courseLessonsOf courseLessonCount
    exact List.length_insertionSort _ _
  refine ⟨_, rfl, hlen, ?_, ?_, ?_⟩
  · rw [List.length_map]
    exact hlen
  · rw [hjoin, List.map_map, List.map_map]
    show List.map (fun l : Lesson => l) (courseLessonsOf db e.courseId) =
      courseLessonsOf db e.courseId
    exact List.map_id _
  · intro d hd hno
    rw [hjoin, List.map_map] at hd
    obtain ⟨l, hlmem, hdl⟩ := List.mem_map.mp hd
    subst hdl
    have hnilf : db.lessonProgress.filter
        (fun p => p.lessonId == l.id && p.enrollmentId == id) = [] := by
      rw [List.filter_eq_nil_iff]
      intro p hp
      simp only [Bool.and_eq_true, beq_iff_eq, not_and]
      intro h1 h2
      exact hno p hp ⟨h2, h1⟩
    simp only [Function.comp_apply]
    rw [hnilf]
    exact ⟨rfl, rfl, rfl⟩

theorem getEnrollmentProgress_spec_witness :
    ∃ r, getEnrollmentProgress dbFourLessons "e1" = some r ∧
      r.totalLessons = 4 ∧ r.lessons.length = 4 := by
  obtain ⟨r, h1, h2, h3, _, _⟩ := getEnrollmentProgress_spec dbFourLessons "e1"
    { id := "e1", userId := "u1", courseId := "c1", progress := 0, enrolledAt := 0 }
    (by decide) (by unfold ProgressRowsDistinct; decide)
  refine ⟨r, h1, ?_, ?_⟩
  · rw [h2]; decide
  · rw [h3]; decide

/-- C10: the list-by-user read uses inner joins from enrollment to course
and from course to instructor user, so an enrollment of the user whose
course row is missing, or all of whose matching course rows have an
instructorId matching no user row, contributes no row to the returned
array. -/
theorem getUserEnrollments_spec (db : Db) (uid : String) (e : Enrollment)
    (he : e ∈ db.enrollments) (hu : e.userId = uid)
    (hmiss : (∀ c ∈ db.courses, ¬ c.id = e.courseId) ∨
             (∀ c ∈ db.courses, c.id = e.courseId →
               ∀ u ∈ db.users, ¬ c.instructorId = some u.id)) :
    ∀ r ∈ getUserEnrollments db uid, ¬ r.enrollment = e := by
  intro r hr hre
  have hr2 := (List.mem_insertionSort enrolledAtLe).mp hr
  obtain ⟨e', he', hr3⟩ := List.mem_flatMap.mp hr2
  obtain ⟨c, hc, hr4⟩ := List.mem_flatMap.mp hr3
  obtain ⟨u, hu', hr5⟩ := List.mem_map.mp hr4
  have he'e : e' = e := by
    rw [← hr5] at hre
    exact hre
  subst he'e
  cases hmiss with
  | inl hnoc =>
    have hcm := List.mem_filter.mp hc
    exact hnoc c hcm.1 (by simpa using hcm.2)
  | inr hnou =>
    have hcm := List.mem_filter.mp hc
    have hum := List.mem_filter.mp hu'
    exact hnou c hcm.1 (by simpa using hcm.2) u hum.1 (by simpa using hum.2)

/-- An enrollment whose course row does not exist. -/
def dbOrphanEnrollment : Db :=
  { users := [{ id := "u1", name := "User One" }]
    courses := []
    lessons := []
    enrollments := [{ id := "e1", userId := "u1", courseId := "cMissing"
                      progress := 0, enrolledAt := 0 }]
    lessonProgress := [] }

theorem getUserEnrollments_spec_witness :
    (∀ r ∈ getUserEnrollments dbOrphanEnrollment "u1",
      ¬ r.enrollment = { id := "e1", userId := "u1", courseId := "cMissing"
                         progress := 0, enrolledAt := 0 }) ∧
    ({ id := "e1", userId := "u1", courseId := "cMissing"
       progress := 0, enrolledAt := 0 } : Enrollment) ∈
      dbOrphanEnrollment.enrollments := by
  constructor
  · exact getUserEnrollments_spec dbOrphanEnrollment "u1"
      { id := "e1", userId := "u1", courseId := "cMissing"
        progress := 0, enrolledAt := 0 }
      (by decide) (by decide) (Or.inl (by simp [dbOrphanEnrollment]))
  · decide
